import Mathlib

/-!
Shallow embedding of the citation/bibliography subsystem of latex-rs
(src/references.rs) and proofs of its specified properties.

Rust strings become Lean `String`; slices (`&[Citation]`) become
`List Citation`; accumulation via `String::push_str` becomes `List.foldl`
over an accumulator string.  Literal brace characters inside string
literals are written with the escapes `\x7b` and `\x7d`.
-/

namespace LatexRs

/-- Embeds the Rust enum `CitationType`: a closed enumeration with the
single variant `Article`. -/
inductive CitationType where
  | Article
deriving DecidableEq

/-- Embeds the Rust struct `Citation` with its five public fields
(`key`, `citation_type`, `title`, `author`, `year`), all string-typed
except the enum `citation_type`. -/
structure Citation where
  key : String
  citation_type : CitationType
  title : String
  author : String
  year : String
deriving DecidableEq

/-- Embeds `Citation::to_bib_entry`: matches on `citation_type` and, for
`Article`, formats
`@article{key,\nauthor={author},\ntitle={title},\nyear={year}\n}`
(braces escaped here as `\x7b`/`\x7d`). -/
def Citation.to_bib_entry (c : Citation) : String :=
  match c.citation_type with
  | CitationType.Article =>
      "@article\x7b" ++ c.key ++ ",\nauthor=\x7b" ++ c.author
        ++ "\x7d,\ntitle=\x7b" ++ c.title ++ "\x7d,\nyear=\x7b"
        ++ c.year ++ "\x7d\n\x7d"

/-- Embeds `impl Cite for Citation`: `format!("\\cite{{{}}}", self.key)`. -/
def Citation.cite (c : Citation) : String :=
  "\\cite\x7b" ++ c.key ++ "\x7d"

/-- Embeds the Rust tuple struct `Citations<'a>(pub &'a [Citation])`:
an ordered view over a sequence of citations. -/
structure Citations where
  toSlice : List Citation

/-- Embeds `impl Cite for Citations`: starts from an empty string and
pushes each member citation's `cite()` output in order. -/
def Citations.cite (cs : Citations) : String :=
  cs.toSlice.foldl (fun acc c => acc ++ c.cite) ""

/-- The `Cite` capability as a closed sum: it is implemented exactly by
`Citation` (single entry) and `Citations` (group) in the source. -/
inductive Citeable where
  | entry (c : Citation)
  | group (cs : Citations)

/-- Dispatch of `cite()` through the `Cite` trait to the two impls. -/
def Citeable.cite : Citeable → String
  | Citeable.entry c => c.cite
  | Citeable.group cs => cs.cite

/-- Embeds the `cited!` macro: starting from an empty string, for each
(text, citation) pair push the literal text and then the pair's
`cite()` output. -/
def cited (pairs : List (String × Citeable)) : String :=
  pairs.foldl (fun acc p => acc ++ p.1 ++ p.2.cite) ""

/-- Embeds the Rust tuple struct `Bibliography(pub &'static [Citation])`. -/
structure Bibliography where
  toSlice : List Citation

/-- Embeds `impl Into<String> for &Bibliography`: starting from an empty
string, for each citation push its `to_bib_entry()` and then a newline. -/
def Bibliography.intoString (b : Bibliography) : String :=
  b.toSlice.foldl (fun acc c => acc ++ c.to_bib_entry ++ "\n") ""

/-- Embeds `Bibliography::to_filecontents`: pushes the
`\begin{filecontents*}{main.bib}` line, then each citation's
`to_bib_entry()` followed by a newline, then the `\end{filecontents*}`
line. -/
def Bibliography.to_filecontents (b : Bibliography) : String :=
  (b.toSlice.foldl (fun acc c => acc ++ c.to_bib_entry ++ "\n")
      "\\begin\x7bfilecontents*\x7d\x7bmain.bib\x7d\n")
    ++ "\\end\x7bfilecontents*\x7d\n"

/-- Embeds `impl ToString for Bibliography`: delegates to
`<&Bibliography as Into<String>>::into(self)`. -/
def Bibliography.to_string (b : Bibliography) : String :=
  b.intoString

/-- The exact byte payload that `Bibliography::write_to_bib_file` passes
to `write_all`, per the source line
`file.write_all(<&Bibliography as Into<String>>::into(self).as_bytes())`.
The file-system side effect itself is not embedded, only the written
text. -/
def Bibliography.write_payload (b : Bibliography) : String :=
  b.intoString

/-- Embeds the expansion of the `bibliography!` macro: one constant
binding per `name = citation` declaration plus one aggregate
`Bibliography` over the declared citations in declaration order.  The
host language rejects two constants of the same name in one scope before
the program runs; that declaration-time rule is rendered here as the
error branch on a duplicate declared name. -/
def bibliographyDecl (decls : List (String × Citation)) :
    Except String (List (String × Citation) × Bibliography) :=
  if (decls.map Prod.fst).Nodup then
    Except.ok (decls, Bibliography.mk (decls.map Prod.snd))
  else
    Except.error "duplicate constant name"

/-- Concatenation of a list of strings in order, used to state the
specified concatenation properties. -/
def concatList : List String → String
  | [] => ""
  | s :: rest => s ++ concatList rest

/-- A concrete example entry, matching the scenario in the spec. -/
def exCitation : Citation :=
  ⟨"k1", CitationType.Article, "T", "Au", "2020"⟩

/-- A second concrete entry for group and bibliography examples. -/
def exCitation2 : Citation :=
  ⟨"key2", CitationType.Article, "title2", "author2", "year2"⟩

/-- Concrete declarations with distinct names. -/
def exDecls : List (String × Citation) :=
  [("CITATION1", exCitation), ("CITATION2", exCitation2)]

/-- Concrete declarations with a duplicated name. -/
def exDupDecls : List (String × Citation) :=
  [("CITATION1", exCitation), ("CITATION1", exCitation2)]

/-- Folding string pushes over a list equals the initial accumulator
followed by the ordered concatenation of the pushed pieces. -/
theorem foldl_push_concat {α : Type} (f : α → String) (l : List α)
    (s : String) :
    l.foldl (fun acc x => acc ++ f x) s = s ++ concatList (l.map f) := by
  induction l generalizing s with
  | nil => simp [concatList]
  | cons x xs ih => simp [concatList, ih, String.append_assoc]

/-- Folding the entry-plus-newline pushes of the bibliography
serializers equals the initial accumulator followed by the ordered
concatenation of the entries each followed by a newline. -/
theorem foldl_entry_newline (l : List Citation) (s : String) :
    l.foldl (fun acc c => acc ++ c.to_bib_entry ++ "\n") s
      = s ++ concatList (l.map (fun c => c.to_bib_entry ++ "\n")) := by
  induction l generalizing s with
  | nil => simp [concatList]
  | cons x xs ih =>
      rw [List.foldl_cons, ih, List.map_cons, concatList]
      simp [String.append_assoc]

/-- Folding the text-then-citation pushes of `cited!` equals the initial
accumulator followed by the ordered concatenation of each text
immediately followed by its citation marker. -/
theorem foldl_cited (pairs : List (String × Citeable)) (s : String) :
    pairs.foldl (fun acc p => acc ++ p.1 ++ p.2.cite) s
      = s ++ concatList (pairs.map (fun p => p.1 ++ p.2.cite)) := by
  induction pairs generalizing s with
  | nil => simp [concatList]
  | cons x xs ih =>
      rw [List.foldl_cons, ih, List.map_cons, concatList]
      simp [String.append_assoc]

/-- Claim C1: for every citation whose `citation_type` is `Article`,
`to_bib_entry` returns exactly the five-line template
`@article{key,\nauthor={author},\ntitle={title},\nyear={year}\n}` with
the fields substituted verbatim and no trailing newline. -/
theorem to_bib_entry_article (c : Citation)
    (h : c.citation_type = CitationType.Article) :
    c.to_bib_entry =
      "@article\x7b" ++ c.key ++ ",\nauthor=\x7b" ++ c.author
        ++ "\x7d,\ntitle=\x7b" ++ c.title ++ "\x7d,\nyear=\x7b"
        ++ c.year ++ "\x7d\n\x7d" := by
  unfold Citation.to_bib_entry
  rw [h]

/-- Witness for claim C1 at the spec's concrete scenario entry. -/
theorem to_bib_entry_article_witness :
    exCitation.citation_type = CitationType.Article ∧
    exCitation.to_bib_entry =
      "@article\x7b" ++ exCitation.key ++ ",\nauthor=\x7b"
        ++ exCitation.author ++ "\x7d,\ntitle=\x7b" ++ exCitation.title
        ++ "\x7d,\nyear=\x7b" ++ exCitation.year ++ "\x7d\n\x7d" :=
  ⟨rfl, to_bib_entry_article exCitation rfl⟩

/-- Claim C2: for every citation `e`, `e.cite()` is exactly
`\cite{` ++ `e.key` ++ `}`, a pure formatting function. -/
theorem cite_eq (c : Citation) :
    c.cite = "\\cite\x7b" ++ c.key ++ "\x7d" := rfl

/-- Claim C3: a `Citations` group over `[e1,...,en]` cites to the
ordered, separator-free concatenation of the members' `cite()` outputs,
and the empty group cites to the empty string. -/
theorem citations_cite_concat :
    (∀ l : List Citation,
        (Citations.mk l).cite = concatList (l.map Citation.cite)) ∧
    (Citations.mk []).cite = "" := by
  constructor
  · intro l
    show l.foldl (fun acc c => acc ++ c.cite) ""
      = concatList (l.map Citation.cite)
    rw [foldl_push_concat Citation.cite l ""]
    simp
  · rfl

/-- Claim C4: the no-envelope serialization of a `Bibliography` is the
concatenation of each entry's `to_bib_entry()` followed by a newline,
and `to_filecontents` is exactly that text wrapped in the fixed
`\begin{filecontents*}{main.bib}` / `\end{filecontents*}` envelope. -/
theorem bibliography_serializations (l : List Citation) :
    (Bibliography.mk l).intoString
        = concatList (l.map (fun c => c.to_bib_entry ++ "\n")) ∧
    (Bibliography.mk l).to_filecontents
        = "\\begin\x7bfilecontents*\x7d\x7bmain.bib\x7d\n"
            ++ concatList (l.map (fun c => c.to_bib_entry ++ "\n"))
            ++ "\\end\x7bfilecontents*\x7d\n" := by
  unfold Bibliography.intoString Bibliography.to_filecontents
  rw [foldl_entry_newline, foldl_entry_newline]
  constructor
  · simp
  · rfl

/-- Claim C5: the `cited!` interleaver returns the ordered concatenation
of each literal text immediately followed by its citeable's `cite()`
output, with nothing inserted between them; zero pairs yield the empty
string. -/
theorem cited_concat :
    (∀ pairs : List (String × Citeable),
        cited pairs = concatList (pairs.map (fun p => p.1 ++ p.2.cite))) ∧
    cited [] = "" := by
  constructor
  · intro pairs
    unfold cited
    rw [foldl_cited]
    simp
  · rfl

/-- Claim C6: rendering a citation as a one-member group produces
byte-identical output to rendering it as a single entry. -/
theorem single_entry_group_agree (c : Citation) :
    (Citations.mk [c]).cite = c.cite := by
  simp [Citations.cite]

/-- Claim C7: a `bibliography!` invocation with pairwise-distinct names
yields one binding per declared name and one aggregate `Bibliography`
over the declared entries in declaration order (never re-sorted), while
a duplicated name is rejected at declaration time. -/
theorem bibliographyDecl_spec (decls : List (String × Citation)) :
    ((decls.map Prod.fst).Nodup →
        bibliographyDecl decls
          = Except.ok (decls, Bibliography.mk (decls.map Prod.snd))) ∧
    (¬ (decls.map Prod.fst).Nodup →
        bibliographyDecl decls = Except.error "duplicate constant name") := by
  constructor
  · intro h
    simp [bibliographyDecl, h]
  · intro h
    simp [bibliographyDecl, h]

/-- Witness for claim C7: a two-entry declaration list with distinct
names succeeds in declaration order, and one with a duplicated name is
rejected. -/
theorem bibliographyDecl_spec_witness :
    bibliographyDecl exDecls
        = Except.ok (exDecls, Bibliography.mk (exDecls.map Prod.snd)) ∧
    bibliographyDecl exDupDecls = Except.error "duplicate constant name" :=
  ⟨(bibliographyDecl_spec exDecls).1 (by decide),
   (bibliographyDecl_spec exDupDecls).2 (by decide)⟩

/-- Claim C8: the citation-type enumeration is closed with the single
variant `Article`, and `to_bib_entry`'s match over it is exhaustive:
every citation serializes to the `Article` template, so no unrecognized
variant can reach serialization.  Totality of `cite`, `cited` and the
in-memory serializers is inherent in their embedding as functions into
`String` with no failure channel, mirroring the infallible Rust
signatures. -/
theorem serialization_total :
    (∀ t : CitationType, t = CitationType.Article) ∧
    (∀ c : Citation,
        c.to_bib_entry =
          "@article\x7b" ++ c.key ++ ",\nauthor=\x7b" ++ c.author
            ++ "\x7d,\ntitle=\x7b" ++ c.title ++ "\x7d,\nyear=\x7b"
            ++ c.year ++ "\x7d\n\x7d") := by
  constructor
  · intro t
    cases t
    rfl
  · intro c
    obtain ⟨k, t, ti, a, y⟩ := c
    cases t
    rfl

/-- Claim C10: `ToString`, `Into<String>` and the byte payload handed to
`write_all` by `write_to_bib_file` are one and the same serialization of
a `Bibliography`. -/
theorem serialization_paths_agree (b : Bibliography) :
    b.to_string = b.intoString ∧ b.write_payload = b.intoString :=
  ⟨rfl, rfl⟩
